import Mathlib

/-!
Shallow embedding of the WhatsApp bot's connection-lifecycle core
(`src/index.ts`): the retry/backoff state machine (`initializeWithRetry`),
the lifecycle event handlers (`ready`, `disconnected`), the shutdown
coordinator (`gracefulShutdown`), the Chromium lock janitor
(`cleanChromiumLocks`), the zodiac-sign detector (`detectZodiacSigns`),
and the HTTP send endpoints' readiness gating.

Stateful TypeScript is modelled as explicit state passing over a
`SysState` record; the side effects that the claims talk about (sleeps,
attempts, process exit, file deletion, invoking the session send) are
reified as event traces or result flags.
-/

/-- Environment configuration: `MAX_RETRIES` (default 5) and
`BASE_RETRY_DELAY` in ms (default 5000), from `src/index.ts` lines 56-57. -/
structure Config where
  MAX_RETRIES : Nat
  BASE_RETRY_DELAY : Nat
deriving DecidableEq

/-- The defaults `parseInt(process.env.MAX_RETRIES || '5')` and
`parseInt(process.env.BASE_RETRY_DELAY || '5000')`. -/
def defaultConfig : Config := ⟨5, 5000⟩

/-- The module-level mutable state of `src/index.ts`:
`initializationAttempt`, `isShuttingDown`, `isReady` (lines 53-55). -/
structure SysState where
  initializationAttempt : Nat
  isShuttingDown : Bool
  isReady : Bool
deriving DecidableEq

/-- State at process start: `initializationAttempt = 0`,
`isShuttingDown = false`, `isReady = false`. -/
def initialState : SysState := ⟨0, false, false⟩

/-- Observable events of one run of the retry loop: a numbered connection
attempt beginning, a backoff sleep of a given duration in ms, a
`process.exit(code)`, or the function returning normally after a
successful `initialize`. -/
inductive Ev where
  | attempt (n : Nat)
  | sleep (ms : Nat)
  | exit (code : Nat)
  | ret
deriving DecidableEq

/-- The backoff delay computed at `src/index.ts` line 296:
`BASE_RETRY_DELAY * Math.pow(2, initializationAttempt - 1)`. -/
def backoffDelay (cfg : Config) (attempt : Nat) : Nat :=
  cfg.BASE_RETRY_DELAY * 2 ^ (attempt - 1)

/-- Outcome of the retry decision taken in the catch branch
(`src/index.ts` lines 295-302): either sleep the backoff delay and loop,
or `process.exit(1)`. -/
inductive RetryChoice where
  | sleepRetry (delayMs : Nat)
  | exitOne
deriving DecidableEq

/-- The retry decision at `src/index.ts` lines 295-302: retry iff
`initializationAttempt < MAX_RETRIES && !isShuttingDown`, else exit 1. -/
def retryDecision (cfg : Config) (attempt : Nat) (shuttingDown : Bool) : RetryChoice :=
  if attempt < cfg.MAX_RETRIES ∧ shuttingDown = false then
    RetryChoice.sleepRetry (backoffDelay cfg attempt)
  else
    RetryChoice.exitOne

/-- One run of the `while` loop of `initializeWithRetry`
(`src/index.ts` lines 253-305), with the body of each attempt (lock
cleanup, destroy of the previous client, settle pause, client creation,
`initialize` under its timeout race) abstracted into the outcome
function `outcomes`: `outcomes n = true` iff attempt number `n`'s
`initialize` completes without throwing.  `fuel` is an upper bound on
remaining iterations used only for termination; the wrapper passes
`MAX_RETRIES - initializationAttempt`, which is exact because the loop
guard `initializationAttempt < MAX_RETRIES` fails exactly when that
difference reaches 0. -/
def retryGo (cfg : Config) (outcomes : Nat → Bool) : Nat → SysState → SysState × List Ev
  | 0, s => (s, [])
  | fuel + 1, s =>
    if s.initializationAttempt < cfg.MAX_RETRIES ∧ s.isShuttingDown = false then
      let n := s.initializationAttempt + 1
      let s1 : SysState := { s with initializationAttempt := n }
      if outcomes n then
        (s1, [Ev.attempt n, Ev.ret])
      else
        match retryDecision cfg n s1.isShuttingDown with
        | RetryChoice.sleepRetry d =>
          let r := retryGo cfg outcomes fuel s1
          (r.1, Ev.attempt n :: Ev.sleep d :: r.2)
        | RetryChoice.exitOne =>
          (s1, [Ev.attempt n, Ev.exit 1])
    else
      (s, [])

/-- `initializeWithRetry` (`src/index.ts` lines 253-305): run the retry
loop from state `s`. -/
def initializeWithRetry (cfg : Config) (outcomes : Nat → Bool) (s : SysState) :
    SysState × List Ev :=
  retryGo cfg outcomes (cfg.MAX_RETRIES - s.initializationAttempt) s

/-- The `ready` event handler (`src/index.ts` lines 317-321):
`isReady = true; initializationAttempt = 0`. -/
def onReady (s : SysState) : SysState :=
  { s with isReady := true, initializationAttempt := 0 }

/-- What the `disconnected` handler does after setting `isReady = false`:
either sleep 5000 ms and call `initializeWithRetry` again, or fall
through the `if` and do nothing (stay idle). -/
inductive DiscAction where
  | reconnect (delayMs : Nat)
  | stayIdle
  | exitProcess (code : Nat)
deriving DecidableEq

/-- The `disconnected` event handler (`src/index.ts` lines 365-374):
set `isReady = false`; if `!isShuttingDown && initializationAttempt <
MAX_RETRIES` then sleep 5000 and reconnect, otherwise nothing (the
handler has no `else` branch; `DiscAction.exitProcess` is never
produced). -/
def onDisconnected (cfg : Config) (s : SysState) : SysState × DiscAction :=
  let s1 : SysState := { s with isReady := false }
  if s.isShuttingDown = false ∧ s.initializationAttempt < cfg.MAX_RETRIES then
    (s1, DiscAction.reconnect 5000)
  else
    (s1, DiscAction.stayIdle)

/-- Whether an event is the start of a connection attempt. -/
def isAttemptEv : Ev → Bool
  | Ev.attempt _ => true
  | _ => false

/-- Number of connection attempts recorded in a trace. -/
def countAttempts (t : List Ev) : Nat := t.countP isAttemptEv

/-- Checks that in a trace every sleep immediately follows a numbered
attempt and equals the backoff schedule's value for that attempt. -/
def backoffOk (cfg : Config) : List Ev → Bool
  | [] => true
  | Ev.attempt n :: Ev.sleep d :: rest =>
    decide (d = backoffDelay cfg n) && backoffOk cfg rest
  | Ev.sleep _ :: _ => false
  | _ :: rest => backoffOk cfg rest

/-- Last event of a trace, if any. -/
def lastEv : List Ev → Option Ev
  | [] => none
  | [e] => some e
  | _ :: e :: rest => lastEv (e :: rest)

/-- State owned by `gracefulShutdown`: the `isShuttingDown` flag and
whether the `client` variable currently holds a handle. -/
structure ShutState where
  isShuttingDown : Bool
  clientExists : Bool
deriving DecidableEq

/-- Observable actions of one `gracefulShutdown` call: the early-return
log line, the client teardown (`client.destroy()` raced against the
5-second timeout), and `process.exit(0)`. -/
inductive SEv where
  | logAlready
  | destroyClient (timeoutMs : Nat)
  | exitZero
deriving DecidableEq

/-- `gracefulShutdown` (`src/index.ts` lines 92-116): if the flag is
already set, log and return; otherwise set the flag, destroy the client
(when one exists) under a 5000 ms timeout, and `process.exit(0)`. -/
def gracefulShutdown (s : ShutState) : ShutState × List SEv :=
  if s.isShuttingDown then
    (s, [SEv.logAlready])
  else
    let s1 : ShutState := { s with isShuttingDown := true }
    if s.clientExists then
      (s1, [SEv.destroyClient 5000, SEv.exitZero])
    else
      (s1, [SEv.exitZero])

/-- Whether an event is the client teardown. -/
def isDestroyEv : SEv → Bool
  | SEv.destroyClient _ => true
  | _ => false

/-- Number of teardowns in a shutdown trace. -/
def countDestroy (t : List SEv) : Nat := t.countP isDestroyEv

/-- A filesystem tree entry as seen by `readdirSync(dir, { withFileTypes:
true })`: a plain (non-directory) entry or a subdirectory with its own
entries. -/
inductive FsEntry where
  | file (name : String)
  | dir (name : String) (entries : List FsEntry)

/-- The fixed lock markers of `src/index.ts` line 68. -/
def lockPatterns : List String := ["SingletonLock", "SingletonSocket", "SingletonCookie"]

/-- JavaScript `name.includes(pat)`: `pat` occurs in `name` as a
contiguous substring. -/
def strIncludes (name pat : String) : Bool :=
  (List.range (name.toList.length + 1)).any fun i =>
    pat.toList.isPrefixOf (name.toList.drop i)

/-- The deletion test of `src/index.ts` line 78:
`lockPatterns.some(pattern => entry.name.includes(pattern))`. -/
def isLockName (name : String) : Bool :=
  lockPatterns.any fun p => strIncludes name p

/-- Modelled from the spec's words, for comparison with the code's
`includes`-based check: `pat` is a substring of `name`, i.e. `name`
decomposes as `l ++ pat ++ r`. -/
def substringSpec (pat name : String) : Prop :=
  ∃ l r : List Char, name.toList = l ++ pat.toList ++ r

/-- The traversal loop of `cleanChromiumLocks` (`src/index.ts` lines
71-86) over one directory's entries: recurse into subdirectories, delete
non-directory entries whose names match a lock marker.  Returns the
surviving entries and the names of the deleted files in traversal
order. -/
def cleanEntries : List FsEntry → List FsEntry × List String
  | [] => ([], [])
  | FsEntry.dir name sub :: rest =>
    let c := cleanEntries sub
    let r := cleanEntries rest
    (FsEntry.dir name c.1 :: r.1, c.2 ++ r.2)
  | FsEntry.file name :: rest =>
    let r := cleanEntries rest
    if isLockName name then (r.1, name :: r.2)
    else (FsEntry.file name :: r.1, r.2)

/-- `cleanChromiumLocks(dir)` (`src/index.ts` lines 61-90): `none` means
the directory does not exist — it is created (`mkdirSync` recursive) and
the function returns, deleting nothing; otherwise the tree is cleaned.
The first component is the directory's contents after the call, the
second the deleted names. -/
def cleanChromiumLocks : Option (List FsEntry) → List FsEntry × List String
  | none => ([], [])
  | some es => cleanEntries es

/-- ECMAScript canonicalisation used by a case-insensitive (`i`, non-`u`)
regex on the characters occurring in the zodiac patterns: ASCII letters
fold to upper case, and the accented vowels appearing in the patterns
fold to their upper-case forms. -/
def canonChar (c : Char) : Char :=
  if c = 'é' then 'É'
  else if c = 'á' then 'Á'
  else if c = 'ó' then 'Ó'
  else c.toUpper

/-- Case-insensitive character comparison of the `i`-flagged regexes. -/
def charIEq (a b : Char) : Bool := canonChar a = canonChar b

/-- ECMAScript `\w` for a non-`u` regex: `[A-Za-z0-9_]`. -/
def isWordChar (c : Char) : Bool :=
  (decide ('a' ≤ c) && decide (c ≤ 'z')) ||
  (decide ('A' ≤ c) && decide (c ≤ 'Z')) ||
  (decide ('0' ≤ c) && decide (c ≤ '9')) || decide (c = '_')

/-- Whether the character at position `p` of `text` is a word character
(out-of-range counts as non-word, as at the ends of the input). -/
def wordAt (text : List Char) (p : Nat) : Bool :=
  match text.get? p with
  | some c => isWordChar c
  | none => false

/-- ECMAScript `\b` at position `p`: exactly one of the characters
around the position is a word character. -/
def boundaryAt (text : List Char) (p : Nat) : Bool :=
  (if p = 0 then false else wordAt text (p - 1)) != wordAt text p

/-- `w` matches the characters of `text` starting at `i` under
case-insensitive comparison. -/
def ieqFrom (text : List Char) (i : Nat) : List Char → Bool
  | [] => true
  | c :: cs =>
    match text.get? i with
    | some t => charIEq t c && ieqFrom text (i + 1) cs
    | none => false

/-- The word `w` matches at position `i` with `\b` on both sides, as the
compiled regexes `\b(...)\b/i` require. -/
def matchesWordAt (text : List Char) (i : Nat) (w : List Char) : Bool :=
  ieqFrom text i w && boundaryAt text i && boundaryAt text (i + w.length)

/-- One zodiac entry of the table at `src/index.ts` lines 161-174: the
emoji and the finite language of the sign's `compiledRegex` (each regex
there is `\b(...)\b/i` over a finite set of literal words, written out
here word by word). -/
structure ZodiacSign where
  emoji : String
  words : List String
deriving DecidableEq

/-- The `zodiacSigns` table (`src/index.ts` lines 161-174), with every
`compiledRegex` expanded to the finite list of words it accepts:
for example `\b(tauros?)\b` accepts `tauro` and `tauros`, and
`\b(escorpi[oó]n?(?:es)?|escorpios?)\b` the ten listed variants. -/
def zodiacSigns : List ZodiacSign := [
  ⟨"♈", ["aries"]⟩,
  ⟨"♉", ["tauro", "tauros"]⟩,
  ⟨"♊", ["geminis", "géminis", "gemini", "gémini"]⟩,
  ⟨"♋", ["cancer", "cáncer"]⟩,
  ⟨"♌", ["leo", "leos"]⟩,
  ⟨"♍", ["virgo", "virgos"]⟩,
  ⟨"♎", ["libra", "libras"]⟩,
  ⟨"♏", ["escorpio", "escorpion", "escorpioes", "escorpiones",
         "escorpió", "escorpión", "escorpióes", "escorpiónes", "escorpios"]⟩,
  ⟨"♐", ["sagitario", "sagitarios"]⟩,
  ⟨"♑", ["capricornio", "capricornios"]⟩,
  ⟨"♒", ["acuario", "acuarios"]⟩,
  ⟨"♓", ["piscis"]⟩]

/-- Index of the first match of a sign's regex in `text`: the `index` of
the first successful `regex.exec(text)` in the scan loop of
`detectZodiacSigns` (`src/index.ts` lines 232-242); `none` when the sign
does not occur.  Leftmost-match semantics: the least start position at
which some word of the sign's language matches. -/
def firstSignMatch (text : List Char) (sign : ZodiacSign) : Option Nat :=
  (List.range text.length).find? fun i =>
    sign.words.any fun w => matchesWordAt text i w.toList

/-- Comparison used by the final `matches.sort((a, b) => a.index -
b.index)`. -/
def idxLe (a b : String × Nat) : Prop := a.2 ≤ b.2

instance : DecidableRel idxLe := fun a b => Nat.decLe a.2 b.2

instance : IsTotal (String × Nat) idxLe := ⟨fun a b => Nat.le_total a.2 b.2⟩

instance : IsTrans (String × Nat) idxLe := ⟨fun _ _ _ h1 h2 => Nat.le_trans h1 h2⟩

/-- The `matches` array of `detectZodiacSigns` after the scan and the
sort: one `(emoji, first-match index)` pair per sign that occurs,
sorted by index.  The dedup set only suppresses repeated matches of the
same sign, so each sign contributes at most its first match. -/
def detectWithIdx (text : String) : List (String × Nat) :=
  let cs := text.toList
  let ms := zodiacSigns.filterMap fun sign =>
    (firstSignMatch cs sign).map fun i => (sign.emoji, i)
  List.insertionSort idxLe ms

/-- `detectZodiacSigns` (`src/index.ts` lines 228-247). -/
def detectZodiacSigns (text : String) : List String :=
  (detectWithIdx text).map Prod.fst

/-- JavaScript falsiness of an optional string field of a parsed JSON
body: absent or the empty string. -/
def falsy : Option String → Bool
  | none => true
  | some s => s = ""

/-- `POST /send` (`src/index.ts` lines 401-459), reduced to the claims'
observables: `jsonOk` is whether `request.json()` succeeds, `sendOk`
whether `client.sendMessage` succeeds.  Returns the HTTP status and
whether the session's send operation was invoked. -/
def handleSend (jsonOk isReady clientExists : Bool)
    (target message : Option String) (sendOk : Bool) : Nat × Bool :=
  if jsonOk = false then (500, false)
  else if falsy target || falsy message then (400, false)
  else if !isReady || !clientExists then (503, false)
  else if sendOk then (200, true) else (500, true)

/-- `POST /send-group` (`src/index.ts` lines 462-510): same shape with
fields `groupId` and `message`. -/
def handleSendGroup (jsonOk isReady clientExists : Bool)
    (groupId message : Option String) (sendOk : Bool) : Nat × Bool :=
  if jsonOk = false then (500, false)
  else if falsy groupId || falsy message then (400, false)
  else if !isReady || !clientExists then (503, false)
  else if sendOk then (200, true) else (500, true)

/-- `POST /send-pdf` (`src/index.ts` lines 513-585): field `target`
required, `caption` optional, and the PDF file must exist (checked after
the readiness gate). -/
def handleSendPdf (jsonOk isReady clientExists : Bool)
    (target : Option String) (pdfExists sendOk : Bool) : Nat × Bool :=
  if jsonOk = false then (500, false)
  else if falsy target then (400, false)
  else if !isReady || !clientExists then (503, false)
  else if pdfExists = false then (500, false)
  else if sendOk then (200, true) else (500, true)

/-! ### Lemmas about the retry loop -/

theorem lastEv_cons_of_ne_nil (a : Ev) (l : List Ev) (h : l ≠ []) :
    lastEv (a :: l) = lastEv l := by
  cases l with
  | nil => exact absurd rfl h
  | cons b t => rfl

theorem retryGo_stop (cfg : Config) (o : Nat → Bool) (k : Nat) (s : SysState)
    (h : ¬(s.initializationAttempt < cfg.MAX_RETRIES ∧ s.isShuttingDown = false)) :
    retryGo cfg o (k + 1) s = (s, []) := by
  simp [retryGo, h]

theorem retryGo_success (cfg : Config) (o : Nat → Bool) (k : Nat) (s : SysState)
    (h : s.initializationAttempt < cfg.MAX_RETRIES ∧ s.isShuttingDown = false)
    (ho : o (s.initializationAttempt + 1) = true) :
    retryGo cfg o (k + 1) s =
      ({ s with initializationAttempt := s.initializationAttempt + 1 },
       [Ev.attempt (s.initializationAttempt + 1), Ev.ret]) := by
  simp [retryGo, h, ho]

theorem retryGo_retry (cfg : Config) (o : Nat → Bool) (k : Nat) (s : SysState)
    (h : s.initializationAttempt < cfg.MAX_RETRIES ∧ s.isShuttingDown = false)
    (ho : o (s.initializationAttempt + 1) = false)
    (hn : s.initializationAttempt + 1 < cfg.MAX_RETRIES) :
    retryGo cfg o (k + 1) s =
      ((retryGo cfg o k { s with initializationAttempt := s.initializationAttempt + 1 }).1,
       Ev.attempt (s.initializationAttempt + 1) ::
         Ev.sleep (backoffDelay cfg (s.initializationAttempt + 1)) ::
         (retryGo cfg o k { s with initializationAttempt := s.initializationAttempt + 1 }).2) := by
  simp [retryGo, h, ho, retryDecision, hn, h.2]

theorem retryGo_exit (cfg : Config) (o : Nat → Bool) (k : Nat) (s : SysState)
    (h : s.initializationAttempt < cfg.MAX_RETRIES ∧ s.isShuttingDown = false)
    (ho : o (s.initializationAttempt + 1) = false)
    (hn : ¬(s.initializationAttempt + 1 < cfg.MAX_RETRIES)) :
    retryGo cfg o (k + 1) s =
      ({ s with initializationAttempt := s.initializationAttempt + 1 },
       [Ev.attempt (s.initializationAttempt + 1), Ev.exit 1]) := by
  simp [retryGo, h, ho, retryDecision, hn, h.2]

theorem retryGo_shut_preserved (cfg : Config) (o : Nat → Bool) :
    ∀ fuel s, ((retryGo cfg o fuel s).1).isShuttingDown = s.isShuttingDown := by
  intro fuel
  induction fuel with
  | zero => intro s; rfl
  | succ k ih =>
    intro s
    by_cases h : s.initializationAttempt < cfg.MAX_RETRIES ∧ s.isShuttingDown = false
    · by_cases ho : o (s.initializationAttempt + 1) = true
      · rw [retryGo_success cfg o k s h ho]
      · by_cases hn : s.initializationAttempt + 1 < cfg.MAX_RETRIES
        · rw [retryGo_retry cfg o k s h (by simpa using ho) hn]
          exact ih _
        · rw [retryGo_exit cfg o k s h (by simpa using ho) hn]
    · rw [retryGo_stop cfg o k s h]

theorem retryGo_count (cfg : Config) (o : Nat → Bool) :
    ∀ fuel s, ((retryGo cfg o fuel s).1).initializationAttempt
      = s.initializationAttempt + countAttempts (retryGo cfg o fuel s).2 := by
  intro fuel
  induction fuel with
  | zero => intro s; simp [retryGo, countAttempts]
  | succ k ih =>
    intro s
    by_cases h : s.initializationAttempt < cfg.MAX_RETRIES ∧ s.isShuttingDown = false
    · by_cases ho : o (s.initializationAttempt + 1) = true
      · rw [retryGo_success cfg o k s h ho]
        simp [countAttempts, isAttemptEv, List.countP_cons]
      · by_cases hn : s.initializationAttempt + 1 < cfg.MAX_RETRIES
        · rw [retryGo_retry cfg o k s h (by simpa using ho) hn]
          have := ih { s with initializationAttempt := s.initializationAttempt + 1 }
          simp [countAttempts, isAttemptEv, List.countP_cons] at this ⊢
          omega
        · rw [retryGo_exit cfg o k s h (by simpa using ho) hn]
          simp [countAttempts, isAttemptEv, List.countP_cons]
    · rw [retryGo_stop cfg o k s h]
      simp [countAttempts]

theorem retryGo_le_max (cfg : Config) (o : Nat → Bool) :
    ∀ fuel s, s.initializationAttempt ≤ cfg.MAX_RETRIES →
      ((retryGo cfg o fuel s).1).initializationAttempt ≤ cfg.MAX_RETRIES := by
  intro fuel
  induction fuel with
  | zero => intro s hs; exact hs
  | succ k ih =>
    intro s hs
    by_cases h : s.initializationAttempt < cfg.MAX_RETRIES ∧ s.isShuttingDown = false
    · by_cases ho : o (s.initializationAttempt + 1) = true
      · rw [retryGo_success cfg o k s h ho]
        simpa using h.1
      · by_cases hn : s.initializationAttempt + 1 < cfg.MAX_RETRIES
        · rw [retryGo_retry cfg o k s h (by simpa using ho) hn]
          exact ih _ (by simpa using h.1)
        · rw [retryGo_exit cfg o k s h (by simpa using ho) hn]
          simpa using h.1
    · rw [retryGo_stop cfg o k s h]
      exact hs

theorem retryGo_backoffOk (cfg : Config) (o : Nat → Bool) :
    ∀ fuel s, backoffOk cfg (retryGo cfg o fuel s).2 = true := by
  intro fuel
  induction fuel with
  | zero => intro s; rfl
  | succ k ih =>
    intro s
    by_cases h : s.initializationAttempt < cfg.MAX_RETRIES ∧ s.isShuttingDown = false
    · by_cases ho : o (s.initializationAttempt + 1) = true
      · rw [retryGo_success cfg o k s h ho]
        rfl
      · by_cases hn : s.initializationAttempt + 1 < cfg.MAX_RETRIES
        · rw [retryGo_retry cfg o k s h (by simpa using ho) hn]
          simp [backoffOk]
          exact ih _
        · rw [retryGo_exit cfg o k s h (by simpa using ho) hn]
          rfl
    · rw [retryGo_stop cfg o k s h]
      rfl

theorem retryGo_attempt_mem (cfg : Config) (o : Nat → Bool) :
    ∀ fuel s n, Ev.attempt n ∈ (retryGo cfg o fuel s).2 →
      s.initializationAttempt < n ∧ n ≤ cfg.MAX_RETRIES := by
  intro fuel
  induction fuel with
  | zero => intro s n hn; simp [retryGo] at hn
  | succ k ih =>
    intro s n hmem
    by_cases h : s.initializationAttempt < cfg.MAX_RETRIES ∧ s.isShuttingDown = false
    · by_cases ho : o (s.initializationAttempt + 1) = true
      · rw [retryGo_success cfg o k s h ho] at hmem
        simp at hmem
        omega
      · by_cases hn : s.initializationAttempt + 1 < cfg.MAX_RETRIES
        · rw [retryGo_retry cfg o k s h (by simpa using ho) hn] at hmem
          simp at hmem
          rcases hmem with hmem | hmem
          · omega
          · have := ih { s with initializationAttempt := s.initializationAttempt + 1 } n hmem
            simp at this
            omega
        · rw [retryGo_exit cfg o k s h (by simpa using ho) hn] at hmem
          simp at hmem
          omega
    · rw [retryGo_stop cfg o k s h] at hmem
      simp at hmem

theorem retryGo_shut_noop (cfg : Config) (o : Nat → Bool) (fuel : Nat) (s : SysState)
    (h : s.isShuttingDown = true) : retryGo cfg o fuel s = (s, []) := by
  cases fuel with
  | zero => rfl
  | succ k => exact retryGo_stop cfg o k s (by simp [h])

theorem retryGo_allfail (cfg : Config) :
    ∀ fuel s, s.isShuttingDown = false → fuel = cfg.MAX_RETRIES - s.initializationAttempt →
      0 < fuel →
      lastEv (retryGo cfg (fun _ => false) fuel s).2 = some (Ev.exit 1) ∧
      countAttempts (retryGo cfg (fun _ => false) fuel s).2 = fuel := by
  intro fuel
  induction fuel with
  | zero => intro s _ _ hpos; omega
  | succ k ih =>
    intro s hshut hfuel _
    have h : s.initializationAttempt < cfg.MAX_RETRIES ∧ s.isShuttingDown = false :=
      ⟨by omega, hshut⟩
    by_cases hn : s.initializationAttempt + 1 < cfg.MAX_RETRIES
    · have hk : 0 < k := by omega
      have hih := ih { s with initializationAttempt := s.initializationAttempt + 1 }
        (by simpa using hshut) (by simp; omega) hk
      have hne : (retryGo cfg (fun _ => false) k
          { s with initializationAttempt := s.initializationAttempt + 1 }).2 ≠ [] := by
        intro hnil
        rw [hnil] at hih
        simp [lastEv] at hih
      rw [retryGo_retry cfg (fun _ => false) k s h rfl hn]
      constructor
      · rw [lastEv_cons_of_ne_nil _ _ (by simp [hne]), lastEv_cons_of_ne_nil _ _ hne]
        exact hih.1
      · simp [countAttempts, isAttemptEv, List.countP_cons] at hih ⊢
        omega
    · rw [retryGo_exit cfg (fun _ => false) k s h rfl hn]
      have hk : k = 0 := by omega
      subst hk
      exact ⟨rfl, rfl⟩

/-- The `disconnected` handler always clears the readiness flag,
whichever branch is taken. -/
theorem onDisconnected_fst (cfg : Config) (s : SysState) :
    (onDisconnected cfg s).1 = { s with isReady := false } := by
  unfold onDisconnected
  split <;> rfl

/-! ### Claim theorems -/

/-- C1: for every attempt number n in [1, MAX_RETRIES], the delay slept
between a failed connection attempt n and the next attempt equals
`BASE_RETRY_DELAY * 2^(n-1)`: in every trace of `initializeWithRetry`,
each sleep immediately follows the failed attempt it backs off from and
its duration is the backoff schedule's value for that attempt number,
and every attempt number lies in [1, MAX_RETRIES]. -/
theorem backoff_delay_spec : ∀ (cfg : Config) (o : Nat → Bool) (s : SysState),
    backoffOk cfg (initializeWithRetry cfg o s).2 = true ∧
    (∀ n, Ev.attempt n ∈ (initializeWithRetry cfg o s).2 → 1 ≤ n ∧ n ≤ cfg.MAX_RETRIES) := by
  intro cfg o s
  refine ⟨retryGo_backoffOk cfg o _ s, ?_⟩
  intro n hmem
  have := retryGo_attempt_mem cfg o _ s n hmem
  omega

/-- Witness for C1 at the default configuration with every attempt
failing: the backoff check holds on the concrete trace, and attempt 1
occurs in it. -/
theorem backoff_delay_spec_witness :
    backoffOk defaultConfig (initializeWithRetry defaultConfig (fun _ => false) initialState).2
      = true ∧
    (1 ≤ 1 ∧ 1 ≤ defaultConfig.MAX_RETRIES) :=
  ⟨(backoff_delay_spec defaultConfig (fun _ => false) initialState).1,
   (backoff_delay_spec defaultConfig (fun _ => false) initialState).2 1 (by decide)⟩

/-- C2: the attempt counter stays within [0, MAX_RETRIES] (it is a Nat,
so 0 is a floor), it grows by exactly one per connection attempt
recorded in the trace, and with MAX_RETRIES consecutive failures from a
fresh start the run performs exactly MAX_RETRIES attempts and its last
event is `process.exit(1)` — no further attempt follows. -/
theorem attempt_counter_spec : ∀ (cfg : Config) (o : Nat → Bool) (s : SysState),
    (s.initializationAttempt ≤ cfg.MAX_RETRIES →
      ((initializeWithRetry cfg o s).1).initializationAttempt ≤ cfg.MAX_RETRIES) ∧
    ((initializeWithRetry cfg o s).1).initializationAttempt
      = s.initializationAttempt + countAttempts (initializeWithRetry cfg o s).2 ∧
    (0 < cfg.MAX_RETRIES →
      lastEv (initializeWithRetry cfg (fun _ => false) initialState).2 = some (Ev.exit 1) ∧
      countAttempts (initializeWithRetry cfg (fun _ => false) initialState).2
        = cfg.MAX_RETRIES) := by
  intro cfg o s
  refine ⟨fun hs => retryGo_le_max cfg o _ s hs, retryGo_count cfg o _ s, fun hmax => ?_⟩
  have h := retryGo_allfail cfg (cfg.MAX_RETRIES - initialState.initializationAttempt)
    initialState rfl rfl (by simp [initialState]; omega)
  simpa [initializeWithRetry, initialState] using h

/-- Witness for C2 at the default configuration. -/
theorem attempt_counter_spec_witness :
    ((initializeWithRetry defaultConfig (fun _ => false) initialState).1).initializationAttempt
      ≤ defaultConfig.MAX_RETRIES ∧
    (lastEv (initializeWithRetry defaultConfig (fun _ => false) initialState).2
        = some (Ev.exit 1) ∧
      countAttempts (initializeWithRetry defaultConfig (fun _ => false) initialState).2
        = defaultConfig.MAX_RETRIES) :=
  ⟨(attempt_counter_spec defaultConfig (fun _ => false) initialState).1 (by decide),
   (attempt_counter_spec defaultConfig (fun _ => false) initialState).2.2 (by decide)⟩

/-- C3: the `ready` handler resets the attempt counter to 0 (and sets
readiness); in the scenario "success on the first attempt, then
disconnect, then MAX_RETRIES failures", the post-disconnect burst
performs exactly MAX_RETRIES attempts (never more than MAX_RETRIES since
the last success) while the total attempts since process start,
1 + MAX_RETRIES, exceed MAX_RETRIES. -/
theorem ready_reset_spec : ∀ cfg : Config, 0 < cfg.MAX_RETRIES →
    (∀ s, (onReady s).initializationAttempt = 0 ∧ (onReady s).isReady = true) ∧
    countAttempts (initializeWithRetry cfg (fun _ => true) initialState).2 = 1 ∧
    countAttempts (initializeWithRetry cfg (fun _ => false)
        ((onDisconnected cfg
          (onReady (initializeWithRetry cfg (fun _ => true) initialState).1)).1)).2
      = cfg.MAX_RETRIES ∧
    cfg.MAX_RETRIES <
      countAttempts (initializeWithRetry cfg (fun _ => true) initialState).2 +
      countAttempts (initializeWithRetry cfg (fun _ => false)
        ((onDisconnected cfg
          (onReady (initializeWithRetry cfg (fun _ => true) initialState).1)).1)).2 := by
  intro cfg hmax
  have hr1 : initializeWithRetry cfg (fun _ => true) initialState
      = ({ initialState with initializationAttempt := 1 }, [Ev.attempt 1, Ev.ret]) := by
    unfold initializeWithRetry
    obtain ⟨k, hk⟩ : ∃ k, cfg.MAX_RETRIES - initialState.initializationAttempt = k + 1 :=
      ⟨cfg.MAX_RETRIES - 1, by simp [initialState]; omega⟩
    rw [hk]
    exact retryGo_success cfg _ k initialState ⟨by simp [initialState]; omega, rfl⟩ rfl
  have hsd : (onDisconnected cfg
      (onReady (initializeWithRetry cfg (fun _ => true) initialState).1)).1 = initialState := by
    rw [hr1, onDisconnected_fst]
    simp [onReady, initialState]
  have hburst : countAttempts (initializeWithRetry cfg (fun _ => false) initialState).2
      = cfg.MAX_RETRIES := by
    have h := retryGo_allfail cfg (cfg.MAX_RETRIES - initialState.initializationAttempt)
      initialState rfl rfl (by simp [initialState]; omega)
    simpa [initializeWithRetry, initialState] using h.2
  refine ⟨fun s => ⟨rfl, rfl⟩, ?_, ?_, ?_⟩
  · rw [hr1]; decide
  · rw [hsd]; exact hburst
  · rw [hsd, hr1, hburst]; simp [countAttempts, isAttemptEv]

/-- Witness for C3 at the default configuration. -/
theorem ready_reset_spec_witness :
    (onReady ⟨3, false, false⟩).initializationAttempt = 0 ∧
    countAttempts (initializeWithRetry defaultConfig (fun _ => true) initialState).2 = 1 :=
  ⟨((ready_reset_spec defaultConfig (by decide)).1 ⟨3, false, false⟩).1,
   (ready_reset_spec defaultConfig (by decide)).2.1⟩

/-- C4: `gracefulShutdown` is idempotent: from a not-yet-shutting-down
state with a live client, calling it twice performs the client teardown
exactly once; the second call only logs and changes nothing; the flag is
set by the first call and still set (never cleared) after the second. -/
theorem gracefulShutdown_idempotent : ∀ s : ShutState,
    s.isShuttingDown = false → s.clientExists = true →
    countDestroy ((gracefulShutdown s).2
      ++ (gracefulShutdown (gracefulShutdown s).1).2) = 1 ∧
    countDestroy (gracefulShutdown s).2 = 1 ∧
    (gracefulShutdown (gracefulShutdown s).1).2 = [SEv.logAlready] ∧
    (gracefulShutdown (gracefulShutdown s).1).1 = (gracefulShutdown s).1 ∧
    ((gracefulShutdown s).1).isShuttingDown = true ∧
    ((gracefulShutdown (gracefulShutdown s).1).1).isShuttingDown = true := by
  intro s h1 h2
  have hs : s = ⟨false, true⟩ := by
    cases s
    simp_all
  subst hs
  decide

/-- Witness for C4 at the concrete pre-shutdown state with a client. -/
theorem gracefulShutdown_idempotent_witness :
    countDestroy ((gracefulShutdown ⟨false, true⟩).2
      ++ (gracefulShutdown (gracefulShutdown ⟨false, true⟩).1).2) = 1 ∧
    (gracefulShutdown (gracefulShutdown ⟨false, true⟩).1).2 = [SEv.logAlready] :=
  ⟨(gracefulShutdown_idempotent ⟨false, true⟩ rfl rfl).1,
   (gracefulShutdown_idempotent ⟨false, true⟩ rfl rfl).2.2.1⟩

/-- C8 counterexample: with the default configuration, on a `disconnected`
event in the state "attempt counter = MAX_RETRIES, not shutting down"
(retries exhausted), the handler neither exits the process nor
reconnects — it stays idle, contradicting the claim that the process
exits (`DiscAction.exitProcess` is the model's only process-exit
action, and the handler never produces it). -/
theorem onDisconnected_no_exit_counterexample :
    (onDisconnected defaultConfig ⟨5, false, true⟩).2 = DiscAction.stayIdle ∧
    (onDisconnected defaultConfig ⟨5, false, true⟩).2 ≠ DiscAction.exitProcess 1 ∧
    (onDisconnected defaultConfig ⟨5, false, true⟩).2 ≠ DiscAction.reconnect 5000 := by
  decide

/-- C8 (amended): on `disconnected`, readiness is cleared; if not
shutting down and retries remain the handler reconnects after a fixed
5000 ms delay; if shutting down or retries are exhausted it performs no
reconnect and does not exit the process from this path — it stays
idle. -/
theorem onDisconnected_spec : ∀ (cfg : Config) (s : SysState),
    ((onDisconnected cfg s).1).isReady = false ∧
    (s.isShuttingDown = false → s.initializationAttempt < cfg.MAX_RETRIES →
      (onDisconnected cfg s).2 = DiscAction.reconnect 5000) ∧
    (s.isShuttingDown = true ∨ cfg.MAX_RETRIES ≤ s.initializationAttempt →
      (onDisconnected cfg s).2 = DiscAction.stayIdle) := by
  intro cfg s
  refine ⟨by rw [onDisconnected_fst], ?_, ?_⟩
  · intro h1 h2
    simp [onDisconnected, h1, h2]
  · intro h
    have hc : ¬(s.isShuttingDown = false ∧ s.initializationAttempt < cfg.MAX_RETRIES) := by
      rcases h with h | h
      · simp [h]
      · rintro ⟨_, hlt⟩
        omega
    simp [onDisconnected, hc]

/-- Witness for the amended C8: a reconnect case and a stay-idle case. -/
theorem onDisconnected_spec_witness :
    (onDisconnected defaultConfig ⟨0, false, true⟩).2 = DiscAction.reconnect 5000 ∧
    (onDisconnected defaultConfig ⟨3, true, true⟩).2 = DiscAction.stayIdle :=
  ⟨(onDisconnected_spec defaultConfig ⟨0, false, true⟩).2.1 rfl (by decide),
   (onDisconnected_spec defaultConfig ⟨3, true, true⟩).2.2 (Or.inl rfl)⟩

/-- C9: the shutdown flag is sticky and gates every retry decision:
with the flag set the retry loop performs no attempt and leaves the
state unchanged (checked before entering the loop), the per-failure
retry decision never schedules a backoff retry (checked before each
backoff retry), the disconnect handler never reconnects, and no modelled
operation ever clears the flag. -/
theorem shutdown_sticky_spec : ∀ (cfg : Config) (o : Nat → Bool) (s : SysState) (t : ShutState),
    (s.isShuttingDown = true → initializeWithRetry cfg o s = (s, [])) ∧
    (∀ n, retryDecision cfg n true = RetryChoice.exitOne) ∧
    (s.isShuttingDown = true → (onDisconnected cfg s).2 = DiscAction.stayIdle) ∧
    ((initializeWithRetry cfg o s).1).isShuttingDown = s.isShuttingDown ∧
    (onReady s).isShuttingDown = s.isShuttingDown ∧
    ((onDisconnected cfg s).1).isShuttingDown = s.isShuttingDown ∧
    (t.isShuttingDown = true → ((gracefulShutdown t).1).isShuttingDown = true) := by
  intro cfg o s t
  refine ⟨fun h => retryGo_shut_noop cfg o _ s h, ?_, ?_,
    retryGo_shut_preserved cfg o _ s, rfl, ?_, ?_⟩
  · intro n
    simp [retryDecision]
  · intro h
    simp [onDisconnected, h]
  · rw [onDisconnected_fst]
  · intro h
    simp [gracefulShutdown, h]

/-- Witness for C9 at concrete shutting-down states. -/
theorem shutdown_sticky_spec_witness :
    initializeWithRetry defaultConfig (fun _ => false) ⟨2, true, false⟩ = (⟨2, true, false⟩, []) ∧
    (onDisconnected defaultConfig ⟨2, true, false⟩).2 = DiscAction.stayIdle ∧
    ((gracefulShutdown ⟨true, true⟩).1).isShuttingDown = true :=
  ⟨(shutdown_sticky_spec defaultConfig (fun _ => false) ⟨2, true, false⟩ ⟨true, true⟩).1 rfl,
   (shutdown_sticky_spec defaultConfig (fun _ => false) ⟨2, true, false⟩ ⟨true, true⟩).2.2.1 rfl,
   (shutdown_sticky_spec defaultConfig (fun _ => false) ⟨2, true, false⟩
     ⟨true, true⟩).2.2.2.2.2.2 rfl⟩

/-! ### Lemmas about the lock janitor -/

theorem strIncludes_iff (name pat : String) :
    strIncludes name pat = true ↔ substringSpec pat name := by
  unfold strIncludes substringSpec
  constructor
  · intro h
    simp only [List.any_eq_true, List.mem_range] at h
    obtain ⟨i, _, hp⟩ := h
    rw [List.isPrefixOf_iff_prefix] at hp
    obtain ⟨r, hr⟩ := hp
    refine ⟨name.toList.take i, r, ?_⟩
    rw [List.append_assoc, hr]
    exact (List.take_append_drop i name.toList).symm
  · rintro ⟨l, r, hlr⟩
    simp only [List.any_eq_true, List.mem_range]
    refine ⟨l.length, ?_, ?_⟩
    · have hlen := congrArg List.length hlr
      simp only [List.length_append] at hlen
      omega
    · rw [List.isPrefixOf_iff_prefix]
      refine ⟨r, ?_⟩
      rw [hlr, List.append_assoc, List.drop_left]

theorem cleanEntries_file_mem : ∀ (es : List FsEntry) (n : String),
    FsEntry.file n ∈ (cleanEntries es).1 ↔ (FsEntry.file n ∈ es ∧ isLockName n = false) := by
  intro es
  induction es with
  | nil => intro n; simp [cleanEntries]
  | cons e rest ih =>
    intro n
    cases e with
    | file m =>
      by_cases hm : isLockName m = true
      · rw [show cleanEntries (FsEntry.file m :: rest)
            = ((cleanEntries rest).1, m :: (cleanEntries rest).2) by simp [cleanEntries, hm]]
        rw [ih n]
        constructor
        · rintro ⟨h1, h2⟩
          exact ⟨List.mem_cons_of_mem _ h1, h2⟩
        · rintro ⟨h1, h2⟩
          rcases List.mem_cons.mp h1 with heq | hmem
          · injection heq with hnm
            subst hnm
            rw [hm] at h2
            cases h2
          · exact ⟨hmem, h2⟩
      · have hm2 : isLockName m = false := by simpa using hm
        rw [show cleanEntries (FsEntry.file m :: rest)
            = (FsEntry.file m :: (cleanEntries rest).1, (cleanEntries rest).2) by
          simp [cleanEntries, hm2]]
        constructor
        · intro h1
          rcases List.mem_cons.mp h1 with heq | hmem
          · injection heq with hnm
            subst hnm
            exact ⟨List.mem_cons_self _ _, hm2⟩
          · obtain ⟨hr, hl⟩ := (ih n).mp hmem
            exact ⟨List.mem_cons_of_mem _ hr, hl⟩
        · rintro ⟨h1, h2⟩
          rcases List.mem_cons.mp h1 with heq | hmem
          · rw [heq]
            exact List.mem_cons_self _ _
          · exact List.mem_cons_of_mem _ ((ih n).mpr ⟨hmem, h2⟩)
    | dir m sub =>
      rw [show cleanEntries (FsEntry.dir m sub :: rest)
          = (FsEntry.dir m (cleanEntries sub).1 :: (cleanEntries rest).1,
             (cleanEntries sub).2 ++ (cleanEntries rest).2) by simp [cleanEntries]]
      constructor
      · intro h1
        rcases List.mem_cons.mp h1 with heq | hmem
        · cases heq
        · obtain ⟨hr, hl⟩ := (ih n).mp hmem
          exact ⟨List.mem_cons_of_mem _ hr, hl⟩
      · rintro ⟨h1, h2⟩
        rcases List.mem_cons.mp h1 with heq | hmem
        · cases heq
        · exact List.mem_cons_of_mem _ ((ih n).mpr ⟨hmem, h2⟩)

theorem cleanEntries_dir_mem : ∀ (es : List FsEntry) (name : String) (sub : List FsEntry),
    FsEntry.dir name sub ∈ es →
      FsEntry.dir name (cleanEntries sub).1 ∈ (cleanEntries es).1 := by
  intro es
  induction es with
  | nil => intro name sub h; cases h
  | cons e rest ih =>
    intro name sub h
    rcases List.mem_cons.mp h with heq | hmem
    · rw [← heq]
      rw [show cleanEntries (FsEntry.dir name sub :: rest)
          = (FsEntry.dir name (cleanEntries sub).1 :: (cleanEntries rest).1,
             (cleanEntries sub).2 ++ (cleanEntries rest).2) by simp [cleanEntries]]
      exact List.mem_cons_self _ _
    · cases e with
      | file m =>
        by_cases hm : isLockName m = true
        · rw [show cleanEntries (FsEntry.file m :: rest)
              = ((cleanEntries rest).1, m :: (cleanEntries rest).2) by simp [cleanEntries, hm]]
          exact ih name sub hmem
        · have hm2 : isLockName m = false := by simpa using hm
          rw [show cleanEntries (FsEntry.file m :: rest)
              = (FsEntry.file m :: (cleanEntries rest).1, (cleanEntries rest).2) by
            simp [cleanEntries, hm2]]
          exact List.mem_cons_of_mem _ (ih name sub hmem)
      | dir m s2 =>
        rw [show cleanEntries (FsEntry.dir m s2 :: rest)
            = (FsEntry.dir m (cleanEntries s2).1 :: (cleanEntries rest).1,
               (cleanEntries s2).2 ++ (cleanEntries rest).2) by simp [cleanEntries]]
        exact List.mem_cons_of_mem _ (ih name sub hmem)

/-- C6: if the directory does not exist it is created and nothing is
deleted; otherwise the tree is traversed recursively and exactly the
non-directory entries whose names match a lock marker are deleted: a
file survives at the top level iff it was there and is not lock-named,
directories are kept (recursively cleaned), and on the spec's example
directory exactly the two lock files are removed. -/
theorem cleanChromiumLocks_spec :
    cleanChromiumLocks none = ([], []) ∧
    (∀ es n, FsEntry.file n ∈ (cleanEntries es).1 ↔
      (FsEntry.file n ∈ es ∧ isLockName n = false)) ∧
    (∀ es name sub, FsEntry.dir name sub ∈ es →
      FsEntry.dir name (cleanEntries sub).1 ∈ (cleanEntries es).1) ∧
    cleanEntries [FsEntry.file "SingletonLock", FsEntry.file "SingletonSocket",
        FsEntry.file "data.txt"]
      = ([FsEntry.file "data.txt"], ["SingletonLock", "SingletonSocket"]) := by
  refine ⟨rfl, cleanEntries_file_mem, cleanEntries_dir_mem, ?_⟩
  have h1 : isLockName "SingletonLock" = true := by decide
  have h2 : isLockName "SingletonSocket" = true := by decide
  have h3 : isLockName "data.txt" = false := by decide
  simp [cleanEntries, h1, h2, h3]

/-- Witness for C6: a subdirectory containing a lock file survives the
clean (with the lock file removed inside), applied at a concrete tree. -/
theorem cleanChromiumLocks_spec_witness :
    FsEntry.dir "profile" (cleanEntries [FsEntry.file "SingletonCookie"]).1
      ∈ (cleanEntries [FsEntry.dir "profile" [FsEntry.file "SingletonCookie"]]).1 :=
  cleanChromiumLocks_spec.2.2.1 [FsEntry.dir "profile" [FsEntry.file "SingletonCookie"]]
    "profile" [FsEntry.file "SingletonCookie"] (List.mem_cons_self _ _)

/-- C10: lock-marker matching is substring containment, not exact-name
equality: a file is deleted iff its name contains one of
`SingletonLock`, `SingletonSocket`, `SingletonCookie` as a contiguous
substring; in particular `SingletonLock.backup` is deleted, and
`SingletonCookie` is a third marker beyond the spec's test's two. -/
theorem lock_substring_spec :
    (∀ name, isLockName name = true ↔ ∃ p ∈ lockPatterns, substringSpec p name) ∧
    (∀ n, cleanEntries [FsEntry.file n]
      = if isLockName n then ([], [n]) else ([FsEntry.file n], [])) ∧
    isLockName "SingletonLock.backup" = true ∧
    isLockName "SingletonCookie" = true ∧
    cleanEntries [FsEntry.file "SingletonLock.backup"] = ([], ["SingletonLock.backup"]) := by
  refine ⟨?_, ?_, by decide, by decide, ?_⟩
  · intro name
    simp [isLockName, List.any_eq_true, strIncludes_iff]
  · intro n
    by_cases h : isLockName n = true
    · simp [cleanEntries, h]
    · have h2 : isLockName n = false := by simpa using h
      simp [cleanEntries, h2]
  · have h : isLockName "SingletonLock.backup" = true := by decide
    simp [cleanEntries, h]

/-! ### Lemmas about the zodiac detector -/

theorem map_fst_filterMap_sublist (g : ZodiacSign → Option Nat) :
    ∀ l : List ZodiacSign,
      List.Sublist
        (List.map Prod.fst (l.filterMap fun sgn => (g sgn).map fun i => (sgn.emoji, i)))
        (List.map ZodiacSign.emoji l) := by
  intro l
  induction l with
  | nil => simp
  | cons sgn rest ih =>
    cases hg : g sgn with
    | none =>
      simp only [List.filterMap_cons, hg, Option.map_none', List.map_cons]
      exact ih.cons _
    | some i =>
      simp only [List.filterMap_cons, hg, Option.map_some', List.map_cons]
      exact ih.cons₂ _

theorem emojis_nodup : (List.map ZodiacSign.emoji zodiacSigns).Nodup := by
  decide

theorem detectWithIdx_nodup_fst (t : String) :
    (List.map Prod.fst (detectWithIdx t)).Nodup := by
  have hperm : List.Perm (detectWithIdx t)
      (zodiacSigns.filterMap fun sgn =>
        (firstSignMatch t.toList sgn).map fun i => (sgn.emoji, i)) :=
    List.perm_insertionSort _ _
  have h1 : (List.map Prod.fst (zodiacSigns.filterMap fun sgn =>
      (firstSignMatch t.toList sgn).map fun i => (sgn.emoji, i))).Nodup :=
    emojis_nodup.sublist (map_fst_filterMap_sublist (fun sgn => firstSignMatch t.toList sgn)
      zodiacSigns)
  exact ((hperm.map Prod.fst).nodup_iff).mpr h1

/-- C5: `detectZodiacSigns` collects all matching signs, deduplicates by
symbol, and orders them by the position of each sign's first occurrence:
the two quoted evaluations hold, the output never contains a duplicate
symbol, the (symbol, index) list is sorted by index, and a pair is in
that list exactly when its sign's regex first matches at that index. -/
theorem detectZodiacSigns_spec :
    detectZodiacSigns "Soy Aries y también Leo" = ["♈", "♌"] ∧
    detectZodiacSigns "hola mundo" = [] ∧
    (∀ t : String, (detectZodiacSigns t).Nodup) ∧
    (∀ t : String, (detectWithIdx t).Pairwise idxLe) ∧
    (∀ t : String, ∀ sgn, sgn ∈ zodiacSigns → ∀ i, firstSignMatch t.toList sgn = some i →
      (sgn.emoji, i) ∈ detectWithIdx t) ∧
    (∀ t : String, ∀ p, p ∈ detectWithIdx t →
      ∃ sgn, sgn ∈ zodiacSigns ∧ sgn.emoji = p.1 ∧ firstSignMatch t.toList sgn = some p.2) := by
  refine ⟨by decide, by decide, ?_, ?_, ?_, ?_⟩
  · intro t
    exact detectWithIdx_nodup_fst t
  · intro t
    exact List.sorted_insertionSort idxLe _
  · intro t sgn hsgn i hi
    have hperm : List.Perm (detectWithIdx t)
        (zodiacSigns.filterMap fun s2 =>
          (firstSignMatch t.toList s2).map fun j => (s2.emoji, j)) :=
      List.perm_insertionSort _ _
    rw [hperm.mem_iff, List.mem_filterMap]
    refine ⟨sgn, hsgn, ?_⟩
    rw [hi]
    rfl
  · intro t p hp
    have hperm : List.Perm (detectWithIdx t)
        (zodiacSigns.filterMap fun s2 =>
          (firstSignMatch t.toList s2).map fun j => (s2.emoji, j)) :=
      List.perm_insertionSort _ _
    rw [hperm.mem_iff, List.mem_filterMap] at hp
    obtain ⟨sgn, hsgn, hf⟩ := hp
    rw [Option.map_eq_some'] at hf
    obtain ⟨i, hi, hpair⟩ := hf
    refine ⟨sgn, hsgn, ?_, ?_⟩
    · rw [← hpair]
    · rw [← hpair]
      exact hi

/-- Witness for C5: Aries first matches at index 4 in the quoted text,
so the pair ("♈", 4) is in the detector's indexed output. -/
theorem detectZodiacSigns_spec_witness :
    ("♈", 4) ∈ detectWithIdx "Soy Aries y también Leo" :=
  detectZodiacSigns_spec.2.2.2.2.1 "Soy Aries y también Leo" ⟨"♈", ["aries"]⟩
    (by decide) 4 (by decide)

/-- C7 counterexample: a POST /send arriving while the readiness flag is
false but with the `message` field absent returns 400 — the
missing-field check precedes the readiness check — not the 503 the claim
requires for every send request while the flag is false (the send
operation is still not invoked). -/
theorem send_not_ready_counterexample :
    (handleSend true false true (some "5215512345678") none true).1 = 400 ∧
    (handleSend true false true (some "5215512345678") none true).1 ≠ 503 := by
  decide

/-- C7 (amended): the readiness flag is false at process start, becomes
true on `ready`, reverts to false on `disconnected`; every send request
whose body parses and whose required fields are present and non-empty,
arriving while the flag is false, is answered 503 without invoking the
session's send operation — and even malformed requests (missing fields
or unparseable body, answered 400 or 500) never invoke a send while
the flag is false. -/
theorem readiness_gate_spec :
    ∀ (client sendOk pdfExists jsonOk : Bool) (target message groupId : Option String)
      (cfg : Config) (s : SysState),
    initialState.isReady = false ∧
    (onReady s).isReady = true ∧
    ((onDisconnected cfg s).1).isReady = false ∧
    (falsy target = false → falsy message = false →
      handleSend true false client target message sendOk = (503, false)) ∧
    (falsy groupId = false → falsy message = false →
      handleSendGroup true false client groupId message sendOk = (503, false)) ∧
    (falsy target = false →
      handleSendPdf true false client target pdfExists sendOk = (503, false)) ∧
    (handleSend jsonOk false client target message sendOk).2 = false ∧
    (handleSendGroup jsonOk false client groupId message sendOk).2 = false ∧
    (handleSendPdf jsonOk false client target pdfExists sendOk).2 = false := by
  intro client sendOk pdfExists jsonOk target message groupId cfg s
  refine ⟨rfl, rfl, by rw [onDisconnected_fst], ?_, ?_, ?_, ?_, ?_, ?_⟩
  · intro h1 h2
    simp [handleSend, h1, h2]
  · intro h1 h2
    simp [handleSendGroup, h1, h2]
  · intro h1
    simp [handleSendPdf, h1]
  · cases jsonOk <;> simp [handleSend] <;> split <;> rfl
  · cases jsonOk <;> simp [handleSendGroup] <;> split <;> rfl
  · cases jsonOk <;> simp [handleSendPdf] <;> split <;> rfl

/-- Witness for the amended C7: well-formed requests on all three
endpoints while the flag is false get 503 with no send invoked. -/
theorem readiness_gate_spec_witness :
    handleSend true false true (some "5215512345678") (some "hola") true = (503, false) ∧
    handleSendGroup true false true (some "1234567890123456") (some "hola") true
      = (503, false) ∧
    handleSendPdf true false true (some "123@g.us") true true = (503, false) :=
  ⟨(readiness_gate_spec true true true true (some "5215512345678") (some "hola")
      (some "1234567890123456") defaultConfig initialState).2.2.2.1 rfl rfl,
   (readiness_gate_spec true true true true (some "5215512345678") (some "hola")
      (some "1234567890123456") defaultConfig initialState).2.2.2.2.1 rfl rfl,
   (readiness_gate_spec true true true true (some "123@g.us") (some "hola")
      (some "1234567890123456") defaultConfig initialState).2.2.2.2.2.1 rfl⟩
